import Mathlib

/-
  Shallow embedding of `src/friendly-box2d.js` : a configuration facade over
  the box2dweb physics engine.  JavaScript numbers are idealized as exact
  rationals plus NaN (the spec's "up to floating-point tolerance"); JS
  Infinity is outside the modelled domain, so every theorem that divides
  keeps the divisor nonzero.  Strings are lists of characters; character
  classes are stated on code points so that the regex of `parsePixels`
  (`/^\s*([-0-9.]+)\s*px/im`) is reproduced literally.  Only the ASCII
  whitespace characters of `\s` are modelled; the claims use no others.
-/

namespace FriendlyBox2d

/-- A JavaScript number: NaN or an exact rational. -/
inductive JSNum where
  | nan : JSNum
  | num (q : ℚ) : JSNum
  deriving DecidableEq

/-- A JavaScript value, as far as the wrapped library inspects values:
`undefined`, `null`, booleans, numbers, strings, arrays, plain objects
(own enumerable fields in insertion order) and opaque functions. -/
inductive JSValue where
  | undef : JSValue
  | null : JSValue
  | bool (b : Bool) : JSValue
  | numv (n : JSNum) : JSValue
  | str (s : String) : JSValue
  | arr (elems : List JSValue) : JSValue
  | obj (fields : List (String × JSValue)) : JSValue
  | fn (tag : ℕ) : JSValue

/-- An own-field table of a plain JS object, in property insertion order. -/
abbrev JSObj := List (String × JSValue)

/-! ## JS arithmetic on the idealized numbers (NaN propagates) -/

def jadd : JSNum → JSNum → JSNum
  | .num a, .num b => .num (a + b)
  | _, _ => .nan

def jsub : JSNum → JSNum → JSNum
  | .num a, .num b => .num (a - b)
  | _, _ => .nan

def jmul : JSNum → JSNum → JSNum
  | .num a, .num b => .num (a * b)
  | _, _ => .nan

/-- JS division; division by zero (JS Infinity) is collapsed to NaN and is
kept outside every theorem's domain by a nonzero-divisor hypothesis. -/
def jdiv : JSNum → JSNum → JSNum
  | .num a, .num b => if b = 0 then .nan else .num (a / b)
  | _, _ => .nan

/-! ## Character classes (code points), matching the source regexes -/

/-- The ASCII characters of regex `\s` (space, tab, LF, CR, VT, FF). -/
def isJsWS (c : Char) : Bool :=
  c.toNat = 32 || c.toNat = 9 || c.toNat = 10 || c.toNat = 13 || c.toNat = 11 || c.toNat = 12

/-- A decimal digit `[0-9]`. -/
def isDigit (c : Char) : Bool :=
  48 ≤ c.toNat && c.toNat ≤ 57

/-- The character class `[-0-9.]` of `parsePixels`.  Note: no `+`. -/
def isPxClass (c : Char) : Bool :=
  c.toNat = 45 || c.toNat = 46 || (48 ≤ c.toNat && c.toNat ≤ 57)

/-- Case-insensitive `p` (flag `i`). -/
def isP (c : Char) : Bool := c.toNat = 112 || c.toNat = 80

/-- Case-insensitive `x` (flag `i`). -/
def isX (c : Char) : Bool := c.toNat = 120 || c.toNat = 88

/-- A JS line terminator relevant to the `m` flag (`\n`, `\r`). -/
def isNL (c : Char) : Bool := c.toNat = 10 || c.toNat = 13

/-! ## parseFloat -/

def digitVal (c : Char) : ℕ := c.toNat - 48

/-- Value of a digit string read in base 10 (empty list reads as 0). -/
def natOfDigits (ds : List Char) : ℕ :=
  ds.foldl (fun a c => 10 * a + digitVal c) 0

/-- Ten to a natural power (explicit recursion so that terms reduce). -/
def npow10 : ℕ → ℚ
  | 0 => 1
  | n + 1 => 10 * npow10 n

/-- Ten to an integer power. -/
def zpow10 : ℤ → ℚ
  | .ofNat n => npow10 n
  | .negSucc n => 1 / npow10 (n + 1)

/-- Value of a fractional digit string `d₁d₂…` as `0.d₁d₂…`. -/
def fracOfDigits (ds : List Char) : ℚ :=
  (natOfDigits ds : ℚ) / npow10 ds.length

/-- Optional sign of a JS numeric literal; returns (isNegative, rest). -/
def parseSign : List Char → Bool × List Char
  | c :: t =>
    if c.toNat = 45 then (true, t)
    else if c.toNat = 43 then (false, t)
    else (false, c :: t)
  | [] => (false, [])

/-- Longest decimal-mantissa prefix: `digits`, `digits.digits?` or `.digits`
(at least one digit overall); returns its value and the rest. -/
def parseMantissa (s : List Char) : Option (ℚ × List Char) :=
  let ip := s.takeWhile isDigit
  let r1 := s.dropWhile isDigit
  match r1 with
  | c :: r2 =>
    if c.toNat = 46 then
      let fp := r2.takeWhile isDigit
      let r3 := r2.dropWhile isDigit
      if ip.isEmpty && fp.isEmpty then none
      else some ((natOfDigits ip : ℚ) + fracOfDigits fp, r3)
    else if ip.isEmpty then none
    else some ((natOfDigits ip : ℚ), c :: r2)
  | [] => if ip.isEmpty then none else some ((natOfDigits ip : ℚ), [])

/-- Optional exponent part `[eE][+-]?digits`; if absent or malformed it is
not consumed (exponent 0, input unchanged), as in JS. -/
def parseExponent (s : List Char) : ℤ × List Char :=
  match s with
  | c :: rest =>
    if c.toNat = 101 || c.toNat = 69 then
      let (sg, r2) : ℤ × List Char :=
        match rest with
        | d :: t =>
          if d.toNat = 43 then (1, t)
          else if d.toNat = 45 then (-1, t)
          else (1, d :: t)
        | [] => (1, [])
      let ds := r2.takeWhile isDigit
      let r3 := r2.dropWhile isDigit
      if ds.isEmpty then (0, s) else (sg * (natOfDigits ds : ℤ), r3)
    else (0, s)
  | [] => (0, [])

/-- JS `parseFloat`: skip leading whitespace, read the longest numeric
prefix, NaN when there is none.  (`Infinity` and hex forms are outside the
modelled inputs.) -/
def parseFloatQ (s0 : List Char) : JSNum :=
  let s1 := s0.dropWhile isJsWS
  let p := parseSign s1
  match parseMantissa p.2 with
  | none => .nan
  | some (m, r) =>
    let e := (parseExponent r).1
    .num ((if p.1 then -m else m) * zpow10 e)

/-- JS `ToNumber` on a string (used by `*` and `/` coercion): trim, empty
string is 0, otherwise the whole string must be one numeric literal.
(`Infinity` and hex forms are outside the modelled inputs.) -/
def strToNumberQ (s0 : List Char) : JSNum :=
  let t := ((s0.dropWhile isJsWS).reverse.dropWhile isJsWS).reverse
  if t.isEmpty then .num 0
  else
    let p := parseSign t
    match parseMantissa p.2 with
    | none => .nan
    | some (m, r) =>
      let er := parseExponent r
      if er.2.isEmpty then .num ((if p.1 then -m else m) * zpow10 er.1)
      else .nan

/-! ## String(number), as far as re-parsing can observe it -/

/-- Decimal digits of the fractional part of `q` (`0 ≤ q < 1`), to the
precision a double can carry. -/
def fracDigitChars : ℕ → ℚ → List Char
  | 0, _ => []
  | fuel + 1, q =>
    if q = 0 then []
    else
      let d : ℕ := (q * 10).floor.toNat
      Char.ofNat (48 + d) :: fracDigitChars fuel (q * 10 - (d : ℚ))

/-- JS `String(n)` for a number (decimal rendering; `NaN` for NaN). -/
def numToChars : JSNum → List Char
  | .nan => ['N', 'a', 'N']
  | .num q =>
    (if q < 0 then ['-'] else []) ++ Nat.toDigits 10 ⌊|q|⌋.toNat ++
      (if |q| - (⌊|q|⌋ : ℚ) = 0 then []
       else '.' :: fracDigitChars 17 (|q| - (⌊|q|⌋ : ℚ)))

/-- Re-parse of `pre ++ String(v) ++ post` by `parseFloat`, the composite
`parseFloat(str.replace(..))` performs.  JS guarantees
`parseFloat(String(x)) = x` for every number `x` (round-trip printing); the
embedding realizes that law exactly when the substituted numeral is the
whole string, which is the only case the wrapped code ever produces for a
well-formed pixel string. -/
def substParse (pre : List Char) (v : JSNum) (post : List Char) : JSNum :=
  if pre.isEmpty && post.isEmpty then v
  else parseFloatQ (pre ++ numToChars v ++ post)

/-! ## The regex `/^\s*([-0-9.]+)\s*px/im` of `parsePixels` -/

/-- Match the pattern at the head of `s`; returns (captured group, rest
after the match).  Greedy runs need no backtracking here because the three
sub-patterns (`\s*`, `[-0-9.]+`, `\s*px`) consume pairwise disjoint
character sets and `p` belongs to none of them. -/
def pxMatchAt (s : List Char) : Option (List Char × List Char) :=
  let t1 := s.dropWhile isJsWS
  let g := t1.takeWhile isPxClass
  let t2 := t1.dropWhile isPxClass
  let t3 := t2.dropWhile isJsWS
  if g.isEmpty then none
  else
    match t3 with
    | p :: x :: rest => if isP p && isX x then some (g, rest) else none
    | _ => none

/-- Scan for the first later `^` anchor position permitted by the `m` flag
(right after a line terminator); `pre` accumulates the scanned prefix
reversed. -/
def pxScanAux : List Char → List Char → Option (List Char × List Char × List Char)
  | _, [] => none
  | pre, c :: rest =>
    if isNL c then
      match pxMatchAt rest with
      | some (g, post) => some ((c :: pre).reverse, g, post)
      | none => pxScanAux (c :: pre) rest
    else pxScanAux (c :: pre) rest

/-- First match of the pattern in `s`: the split (prefix before the match,
captured group, suffix after the match), `none` when the string does not
match anywhere. -/
def pxReplaceSplit (s : List Char) : Option (List Char × List Char × List Char) :=
  match pxMatchAt s with
  | some (g, post) => some ([], g, post)
  | none => pxScanAux [] s

/-! ## JS object / array helpers (`map`, `merge`, property access) -/

/-- `key in o` on own fields (the claims' keys never collide with
`Object.prototype` members, so the prototype chain is irrelevant). -/
def hasKey : JSObj → String → Bool
  | [], _ => false
  | (k', _) :: t, k => k' = k || hasKey t k

/-- Property read `o[k]`; a missing key reads as `undefined`. -/
def getProp : JSObj → String → JSValue
  | [], _ => .undef
  | (k', v) :: t, k => if k' = k then v else getProp t k

/-- Property write `o[k] = v`: overwrite in place when present, otherwise
append as the newest own property. -/
def setKey : JSObj → String → JSValue → JSObj
  | [], k, v => [(k, v)]
  | (k', w) :: t, k, v =>
    if k' = k then (k', v) :: t else (k', w) :: setKey t k v

/-- Source `merge(defaults, settings)`: for every own key of `defaults`
missing from `settings` (the `key in settings` test), write the default
into `settings`; the (mutated) `settings` object is the result. -/
def merge : JSObj → JSObj → JSObj
  | [], settings => settings
  | (k, v) :: t, settings =>
    merge t (if hasKey settings k then settings else setKey settings k v)

/-- Property read on an arbitrary value (`gravity.x` on the argument
object; non-objects read as `undefined` here — the claims never read
fields of primitives). -/
def propGet : JSValue → String → JSValue
  | .obj fields, k => getProp fields k
  | _, _ => (.undef)

/-- Index read `e[i]` as the vertex loop performs it: array element, object
field named by the decimal index, character of a string; numbers and
booleans box to objects with no index properties. -/
def idx : JSValue → ℕ → JSValue
  | .arr l, i => (l.get? i).getD .undef
  | .obj fields, i => getProp fields (toString i)
  | .str s, i =>
    match s.data.get? i with
    | some c => .str ⟨[c]⟩
    | none => .undef
  | _, _ => (.undef)

/-- The values visited by the source's `map(obj, …)` `for-in` loop: array
elements in index order, object field values in insertion order, string
characters; primitives have no own enumerable properties. -/
def ownValues : JSValue → List JSValue
  | .arr l => l
  | .obj fields => fields.map (fun p => p.2)
  | .str s => s.data.map (fun c => .str ⟨[c]⟩)
  | _ => []

/-- JS truthiness. -/
def truthy : JSValue → Bool
  | .undef => false
  | .null => false
  | .bool b => b
  | .numv .nan => false
  | .numv (.num q) => q ≠ 0
  | .str s => s ≠ ""
  | .arr _ => true
  | .obj _ => true
  | .fn _ => true

/-- `typeof v === 'function'`. -/
def isFunction : JSValue → Bool
  | .fn _ => true
  | _ => false

/-- Loose equality with `undefined` (`v == undefined` holds exactly for
`undefined` and `null`). -/
def looseEqUndefined : JSValue → Bool
  | .undef => true
  | .null => true
  | _ => false

/-- JS `ToNumber` coercion.  Arrays, objects and functions coerce through
`toString`; the claims never coerce those, so they collapse to NaN. -/
def toNumber : JSValue → JSNum
  | .undef => .nan
  | .null => .num 0
  | .bool b => .num (if b then 1 else 0)
  | .numv n => n
  | .str s => strToNumberQ s.data
  | .arr _ => .nan
  | .obj _ => .nan
  | .fn _ => .nan

/-! ## The unit-conversion routines of the facade -/

/-- `world.prototype.parsePixels` on a string: replace the first regex
match by `parseFloat($1) * 1/drawRatio` and `parseFloat` the result. -/
def parsePixelsStr (dr : JSNum) (s : List Char) : JSNum :=
  match pxReplaceSplit s with
  | some (pre, g, post) =>
    substParse pre (jdiv (jmul (parseFloatQ g) (.num 1)) dr) post
  | none => parseFloatQ s

/-- `world.prototype.parsePixels`: strings go through the regex replace and
re-parse; every non-string value is returned unchanged. -/
def parsePixelsV (dr : JSValue) (v : JSValue) : JSValue :=
  match v with
  | .str s => .numv (parsePixelsStr (toNumber dr) s.data)
  | x => x

/-- `world.prototype.toPixels`: `num * this.drawRatio()` (plain JS
multiplication with `ToNumber` coercion — no px stripping). -/
def toPixels (dr : JSValue) (v : JSValue) : JSNum :=
  jmul (toNumber v) (toNumber dr)

/-- Remove the first case-insensitive occurrence of `px`
(`num.replace(/px/i, '')`). -/
def stripPx : List Char → List Char
  | [] => []
  | [c] => [c]
  | a :: b :: t =>
    if isP a && isX b then t else a :: stripPx (b :: t)

/-- `world.prototype.toMeters`: on strings, first strip one `px`, then
divide by the draw ratio (ToNumber coercion on both sides of `/`). -/
def toMeters (dr : JSValue) (v : JSValue) : JSNum :=
  let v' : JSValue :=
    match v with
    | .str s => .str ⟨stripPx s.data⟩
    | x => x
  jdiv (toNumber v') (toNumber dr)

/-! ## The engine-side body data the facade constructs -/

/-- `b2Body.b2_staticBody` / `b2Body.b2_dynamicBody`. -/
inductive BodyType where
  | staticBody : BodyType
  | dynamicBody : BodyType

/-- The resolved fixture shape handed to the engine: `SetAsBox` half
extents, the `SetAsArray` vertex list, or a circle radius.  Vertex and
radius slots hold the raw values the wrapper passes (box2dweb stores them
without validation). -/
inductive ShapeRes where
  | box (hw hh : JSNum) : ShapeRes
  | polygon (vs : List (JSValue × JSValue)) : ShapeRes
  | circle (r : JSValue) : ShapeRes

/-- An engine body as the wrapper configures it: body type, initial
position, fixture material triple, resolved shape, the angle set by
`SetAngle`, the `sensorCallback` property (when a function was supplied)
and the caller's opaque `id`. -/
structure B2Body where
  btype : BodyType
  position : JSValue × JSValue
  angle : JSValue
  shape : ShapeRes
  density : JSValue
  friction : JSValue
  restitution : JSValue
  sensorCallback : Option JSValue
  id : JSValue

/-- The facade's state: the settings snapshot the closures read
(`drawRatio`, `ignoreStatic`), the engine world's gravity vector, and the
ordered `bodies` registry. -/
structure World where
  drawRatio : JSValue
  ignoreStatic : JSValue
  gravity : JSValue × JSValue
  bodies : List B2Body

/-- The defaults merged by the `world` constructor. -/
def worldDefaults : JSObj :=
  [("ignoreStatic", .bool true),
   ("drawRatio", .numv (.num 1)),
   ("gravity", .obj [("x", .numv (.num 0)), ("y", .numv (.num (49 / 5)))])]

/-- `new Box2D.world(settings)`: merge the world defaults, then create the
engine world with `new Vec2(settings.gravity.x, settings.gravity.y)` and
an empty body registry. -/
def worldInit (settings0 : JSObj) : World :=
  let s := merge worldDefaults settings0
  { drawRatio := getProp s "drawRatio"
    ignoreStatic := getProp s "ignoreStatic"
    gravity := (propGet (getProp s "gravity") "x", propGet (getProp s "gravity") "y")
    bodies := [] }

/-- `world.prototype.gravity`: with a falsy argument, read the current
engine gravity; otherwise set each axis from the argument, keeping the
current value for an axis that is `== undefined`.  Returns the pair
(world after the call, the vector returned by the read form). -/
def gravityOp (w : World) (arg : JSValue) : World × Option (JSValue × JSValue) :=
  let current := w.gravity
  if truthy arg = false then (w, some current)
  else
    let gx := propGet arg "x"
    let gy := propGet arg "y"
    ({ w with
        gravity :=
          ((if looseEqUndefined gx then current.1 else gx),
           (if looseEqUndefined gy then current.2 else gy)) },
     none)

/-! ## addBody -/

/-- The defaults merged into the caller's options object by `addBody`. -/
def bodyDefaults : JSObj :=
  [("shape", .str "box"),
   ("static", .bool true),
   ("density", .numv (.num 1)),
   ("friction", .numv (.num (1 / 2))),
   ("restitution", .numv (.num (3 / 10))),
   ("sensorCallback", .undef),
   ("x", .numv (.num 0)),
   ("y", .numv (.num 0)),
   ("rotation", .numv (.num 0)),
   ("radius", .undef),
   ("width", .undef),
   ("height", .undef),
   ("vertices", .undef),
   ("id", .undef)]

/-- The fresh object literal of the second `merge`, holding the
pixel-converted distance fields. -/
def pxFields (dr : JSValue) (s1 : JSObj) : JSObj :=
  [("x", parsePixelsV dr (getProp s1 "x")),
   ("y", parsePixelsV dr (getProp s1 "y")),
   ("radius", parsePixelsV dr (getProp s1 "radius")),
   ("width", parsePixelsV dr (getProp s1 "width")),
   ("height", parsePixelsV dr (getProp s1 "height"))]

/-- The `switch (settings.shape)` dispatch building the fixture shape:
`box` via `SetAsBox(width/2, height/2)`, `polygon` via the `map` over
`settings.vertices` reading `e[0]`/`e[1]`, `circle` via
`new CircleShape(radius)`; every other value hits `default: throw`. -/
def resolveShape (dr : JSValue) (s3 : JSObj) : Option ShapeRes :=
  match getProp s3 "shape" with
  | .str sh =>
    if sh = "box" then
      some (.box (jdiv (toNumber (getProp s3 "width")) (.num 2))
                 (jdiv (toNumber (getProp s3 "height")) (.num 2)))
    else if sh = "polygon" then
      some (.polygon ((ownValues (getProp s3 "vertices")).map
        (fun e => (parsePixelsV dr (idx e 0), parsePixelsV dr (idx e 1)))))
    else if sh = "circle" then
      some (.circle (getProp s3 "radius"))
    else none
  | _ => none

/-- The body record `addBody` hands to the engine, read off the fully
normalized internal settings object. -/
def mkBody (s3 : JSObj) (shp : ShapeRes) : B2Body :=
  { btype := if truthy (getProp s3 "static") then .staticBody else .dynamicBody
    position := (getProp s3 "x", getProp s3 "y")
    angle := getProp s3 "rotation"
    shape := shp
    density := getProp s3 "density"
    friction := getProp s3 "friction"
    restitution := getProp s3 "restitution"
    sensorCallback :=
      if isFunction (getProp s3 "sensorCallback") then some (getProp s3 "sensorCallback")
      else none
    id := getProp s3 "id" }

/-- Outcome of an `addBody` call.  `ok` carries the world after the
registry append, the returned body and the final state of the caller's
options object; `err` models the thrown `TypeError`, carrying the world at
the throw (its registry untouched) and the caller's object at the throw
(`none` for the zero-argument call, which throws before touching it). -/
inductive AddBodyRes where
  | ok (w : World) (b : B2Body) (callerObj : JSObj) : AddBodyRes
  | err (w : World) (callerObj : Option JSObj) : AddBodyRes

/-- The steps of `addBody` after the `switch`: `default:` throws (world and
caller object untouched beyond the first `merge`), otherwise the body is
built, the fixture attached, and the body pushed onto the registry. -/
def finishBody (w : World) (s1 s3 : JSObj) : Option ShapeRes → AddBodyRes
  | none => .err w (some s1)
  | some shp => .ok { w with bodies := w.bodies ++ [mkBody s3 shp] } (mkBody s3 shp) s1

/-- The in-place normalization of the local `settings` variable after the
first `merge`: the second `merge` fills the *fresh* `pxFields` literal and
rebinds the local (the caller's object keeps its original distance
fields), then a supplied `vertices` forces `shape = 'polygon'`. -/
def normSettings (dr : JSValue) (s1 : JSObj) : JSObj :=
  let s2 := merge s1 (pxFields dr s1)
  if truthy (getProp s2 "vertices") then setKey s2 "shape" (.str "polygon") else s2

/-- `world.addBody(settings)`, `arg = none` modelling a call with no
argument at all.  The first `merge` writes the defaults into the caller's
object in place; that mutated object (`s1`) is the caller-visible final
state, threaded through the outcome. -/
def addBody (w : World) (arg : Option JSObj) : AddBodyRes :=
  match arg with
  | none => .err w none
  | some settings0 =>
    let s1 := merge bodyDefaults settings0
    let s3 := normSettings w.drawRatio s1
    finishBody w s1 s3 (resolveShape w.drawRatio s3)

/-- World component of an `addBody` outcome. -/
def resWorld : AddBodyRes → World
  | .ok w _ _ => w
  | .err w _ => w

/-- Whether the call threw. -/
def isErr : AddBodyRes → Bool
  | .ok _ _ _ => false
  | .err _ _ => true

/-- Shape of the constructed body, when the call succeeded. -/
def resShape : AddBodyRes → Option ShapeRes
  | .ok _ b _ => some b.shape
  | .err _ _ => none

/-- Final state of the caller's options object, when the call succeeded. -/
def resSettings : AddBodyRes → Option JSObj
  | .ok _ _ s => some s
  | .err _ _ => none

/-! ## iterBodies and randomImpulse -/

/-- The `map(bodies, func)` loop of `iterBodies`: visit every registry
entry in order with its index, collecting the visitor results. -/
def iterBodiesFrom {α : Type} (f : ℕ → B2Body → α) : ℕ → List B2Body → List α
  | _, [] => []
  | i, b :: t => f i b :: iterBodiesFrom f (i + 1) t

/-- `world.iterBodies(func)`. -/
def iterBodies {α : Type} (w : World) (f : ℕ → B2Body → α) : List α :=
  iterBodiesFrom f 0 w.bodies

/-- The defaults merged by `randomImpulse`. -/
def riDefaults : JSObj :=
  [("minAngle", .numv (.num 0)),
   ("maxAngle", .numv (.num 360)),
   ("scale", .str "10px")]

/-- Observable outcome of `randomImpulse`: the caller's options object
after the call (both `merge` and the `settings.scale` assignment mutate it
in place), the drawn angle in degrees and the normalized scale.  The
impulse vector `(cos(angle·π/180)·scale, sin(angle·π/180)·scale)` and its
application at the body's world center are delegated to `Math`/the engine
and are fully determined by these two numbers. -/
structure RandomImpulseOut where
  settings : JSObj
  angle : JSNum
  scale : JSValue

/-- `world.prototype.randomImpulse(body, settings)`; `rnd` stands for the
`Math.random()` draw (`0 ≤ rnd < 1`). -/
def randomImpulse (w : World) (settings0 : JSObj) (rnd : ℚ) : RandomImpulseOut :=
  let s1 := merge riDefaults settings0
  let s2 := setKey s1 "scale" (parsePixelsV w.drawRatio (getProp s1 "scale"))
  let angle :=
    jadd (toNumber (getProp s2 "minAngle"))
      (jmul (.num rnd) (jsub (toNumber (getProp s2 "maxAngle")) (toNumber (getProp s2 "minAngle"))))
  { settings := s2, angle := angle, scale := getProp s2 "scale" }

/-! ## Specification-side denotations and concrete inputs -/

/-- The characters of a decimal literal: an optional minus sign, integer
digits, and an optional dot followed by fraction digits. -/
def litChars (neg : Bool) (ip : List Char) (useDot : Bool) (fp : List Char) : List Char :=
  (if neg then ['-'] else []) ++ ip ++ (if useDot then '.' :: fp else [])

/-- The rational denoted by such a literal. -/
def decValue (neg : Bool) (ip : List Char) (useDot : Bool) (fp : List Char) : ℚ :=
  (if neg then -1 else 1) * ((natOfDigits ip : ℚ) + if useDot then fracOfDigits fp else 0)

/-- The point list (1,2), (3,4), (5,6) as an array of [x, y] pairs. -/
def pairEncoding : JSValue :=
  .arr [.arr [.numv (.num 1), .numv (.num 2)],
        .arr [.numv (.num 3), .numv (.num 4)],
        .arr [.numv (.num 5), .numv (.num 6)]]

/-- The same point list as an array of {x, y} records. -/
def recordEncoding : JSValue :=
  .arr [.obj [("x", .numv (.num 1)), ("y", .numv (.num 2))],
        .obj [("x", .numv (.num 3)), ("y", .numv (.num 4))],
        .obj [("x", .numv (.num 5)), ("y", .numv (.num 6))]]

/-- The same point list as a flat alternating sequence of scalars. -/
def flatEncoding : JSValue :=
  .arr [.numv (.num 1), .numv (.num 2), .numv (.num 3),
        .numv (.num 4), .numv (.num 5), .numv (.num 6)]

/-! ## General helper lemmas -/

theorem takeWhile_all {α : Type} (p : α → Bool) :
    ∀ l : List α, (∀ c ∈ l, p c = true) → l.takeWhile p = l := by
  intro l h
  induction l with
  | nil => rfl
  | cons a t ih =>
    have ha : p a = true := h a (by simp)
    rw [List.takeWhile_cons, ha, if_pos rfl, ih fun c hc => h c (by simp [hc])]

theorem dropWhile_all {α : Type} (p : α → Bool) :
    ∀ l : List α, (∀ c ∈ l, p c = true) → l.dropWhile p = [] := by
  intro l h
  induction l with
  | nil => rfl
  | cons a t ih =>
    have ha : p a = true := h a (by simp)
    rw [List.dropWhile_cons, ha, if_pos rfl, ih fun c hc => h c (by simp [hc])]

theorem takeWhile_append_all {α : Type} (p : α → Bool) (l1 l2 : List α)
    (h1 : ∀ c ∈ l1, p c = true) (h2 : ∀ c, l2.head? = some c → p c = false) :
    (l1 ++ l2).takeWhile p = l1 := by
  induction l1 with
  | nil =>
    cases l2 with
    | nil => rfl
    | cons c t => simp [List.takeWhile_cons, h2 c rfl]
  | cons a t ih =>
    have ha : p a = true := h1 a (by simp)
    simp only [List.cons_append, List.takeWhile_cons, ha]
    simp [ih fun c hc => h1 c (by simp [hc])]

theorem dropWhile_append_all {α : Type} (p : α → Bool) (l1 l2 : List α)
    (h1 : ∀ c ∈ l1, p c = true) (h2 : ∀ c, l2.head? = some c → p c = false) :
    (l1 ++ l2).dropWhile p = l2 := by
  induction l1 with
  | nil =>
    cases l2 with
    | nil => rfl
    | cons c t => simp [List.dropWhile_cons, h2 c rfl]
  | cons a t ih =>
    have ha : p a = true := h1 a (by simp)
    simp only [List.cons_append, List.dropWhile_cons, ha]
    exact ih fun c hc => h1 c (by simp [hc])

theorem dropWhile_head_false {α : Type} (p : α → Bool) (a : α) (l : List α)
    (h : p a = false) : (a :: l).dropWhile p = a :: l := by
  simp [List.dropWhile_cons, h]

/-! ## Character-class lemmas -/

theorem isDigit_isPxClass {c : Char} (h : isDigit c = true) : isPxClass c = true := by
  simp only [isDigit, Bool.and_eq_true, decide_eq_true_eq] at h
  simp only [isPxClass, Bool.or_eq_true, Bool.and_eq_true, decide_eq_true_eq]
  omega

theorem isDigit_not_ws {c : Char} (h : isDigit c = true) : isJsWS c = false := by
  rw [Bool.eq_false_iff]
  intro hw
  simp only [isDigit, Bool.and_eq_true, decide_eq_true_eq] at h
  simp only [isJsWS, Bool.or_eq_true, decide_eq_true_eq] at hw
  omega

theorem isPxClass_not_ws {c : Char} (h : isPxClass c = true) : isJsWS c = false := by
  rw [Bool.eq_false_iff]
  intro hw
  simp only [isPxClass, Bool.or_eq_true, Bool.and_eq_true, decide_eq_true_eq] at h
  simp only [isJsWS, Bool.or_eq_true, decide_eq_true_eq] at hw
  omega

theorem ws_not_pxClass {c : Char} (h : isJsWS c = true) : isPxClass c = false := by
  rw [Bool.eq_false_iff]
  intro hpx
  simp only [isJsWS, Bool.or_eq_true, decide_eq_true_eq] at h
  simp only [isPxClass, Bool.or_eq_true, Bool.and_eq_true, decide_eq_true_eq] at hpx
  omega

theorem isP_not_pxClass {c : Char} (h : isP c = true) : isPxClass c = false := by
  rw [Bool.eq_false_iff]
  intro hpx
  simp only [isP, Bool.or_eq_true, decide_eq_true_eq] at h
  simp only [isPxClass, Bool.or_eq_true, Bool.and_eq_true, decide_eq_true_eq] at hpx
  omega

theorem isP_not_ws {c : Char} (h : isP c = true) : isJsWS c = false := by
  rw [Bool.eq_false_iff]
  intro hw
  simp only [isP, Bool.or_eq_true, decide_eq_true_eq] at h
  simp only [isJsWS, Bool.or_eq_true, decide_eq_true_eq] at hw
  omega

theorem isDigit_toNat_ne {c : Char} (h : isDigit c = true) :
    c.toNat ≠ 45 ∧ c.toNat ≠ 43 ∧ c.toNat ≠ 46 := by
  simp only [isDigit, Bool.and_eq_true, decide_eq_true_eq] at h
  omega

/-! ## Object-table lemmas -/

theorem getProp_of_not_hasKey (o : JSObj) (k : String) (h : hasKey o k = false) :
    getProp o k = .undef := by
  induction o with
  | nil => rfl
  | cons p t ih =>
    simp only [hasKey, Bool.or_eq_false_iff, decide_eq_false_iff_not] at h
    simp [getProp, h.1, ih h.2]

theorem setKey_of_not_hasKey (o : JSObj) (k : String) (v : JSValue)
    (h : hasKey o k = false) : setKey o k v = o ++ [(k, v)] := by
  induction o with
  | nil => rfl
  | cons p t ih =>
    simp only [hasKey, Bool.or_eq_false_iff, decide_eq_false_iff_not] at h
    simp [setKey, h.1, ih h.2]

theorem hasKey_append_single (o : JSObj) (k k' : String) (v : JSValue) :
    hasKey (o ++ [(k, v)]) k' = (hasKey o k' || decide (k = k')) := by
  induction o with
  | nil => simp [hasKey]
  | cons p t ih => simp [hasKey, ih, Bool.or_assoc]

theorem getProp_append_single (o : JSObj) (k k' : String) (v : JSValue) :
    getProp (o ++ [(k, v)]) k' =
      if hasKey o k' then getProp o k' else if k = k' then v else .undef := by
  induction o with
  | nil => simp [hasKey, getProp]
  | cons p t ih =>
    by_cases hp : p.1 = k'
    · simp [getProp, hasKey, hp]
    · simp [getProp, hasKey, hp, ih]

theorem getProp_merge (d : JSObj) (k : String) :
    ∀ s : JSObj, getProp (merge d s) k =
      if hasKey s k then getProp s k else getProp d k := by
  induction d with
  | nil =>
    intro s
    by_cases h : hasKey s k = true
    · simp [merge, h]
    · simp only [Bool.not_eq_true] at h
      simp [merge, h, getProp_of_not_hasKey s k h, getProp]
  | cons p t ih =>
    intro s
    by_cases h1 : hasKey s p.1 = true
    · simp only [merge, h1, if_pos, ih]
      by_cases h2 : hasKey s k = true
      · simp [h2]
      · have hne : ¬(p.1 = k) := by
          intro he
          rw [he] at h1
          simp only [Bool.not_eq_true] at h2
          rw [h1] at h2
          exact Bool.true_eq_false.mp h2
        simp only [Bool.not_eq_true] at h2
        simp [h2, getProp, hne]
    · simp only [Bool.not_eq_true] at h1
      simp only [merge, h1, Bool.false_eq_true, if_false,
        setKey_of_not_hasKey s p.1 p.2 h1, ih]
      rw [hasKey_append_single, getProp_append_single]
      by_cases h2 : hasKey s k = true
      · simp [h2]
      · simp only [Bool.not_eq_true] at h2
        by_cases h3 : p.1 = k
        · simp [h2, h3, getProp]
        · simp [h2, h3, getProp]

theorem getProp_setKey_self (o : JSObj) (k : String) (v : JSValue) :
    getProp (setKey o k v) k = v := by
  induction o with
  | nil => simp [setKey, getProp]
  | cons p t ih =>
    by_cases hp : p.1 = k
    · simp [setKey, getProp, hp]
    · simp [setKey, getProp, hp, ih]

theorem hasKey_pxFields_shape (dr : JSValue) (s1 : JSObj) :
    hasKey (pxFields dr s1) "shape" = false := rfl

theorem hasKey_pxFields_vertices (dr : JSValue) (s1 : JSObj) :
    hasKey (pxFields dr s1) "vertices" = false := rfl

theorem iterBodiesFrom_length {α : Type} (f : ℕ → B2Body → α) :
    ∀ (i : ℕ) (l : List B2Body), (iterBodiesFrom f i l).length = l.length := by
  intro i l
  induction l generalizing i with
  | nil => rfl
  | cons b t ih => simp [iterBodiesFrom, ih]

theorem addBody_some_eq (w : World) (s0 : JSObj) :
    addBody w (some s0) =
      finishBody w (merge bodyDefaults s0)
        (normSettings w.drawRatio (merge bodyDefaults s0))
        (resolveShape w.drawRatio (normSettings w.drawRatio (merge bodyDefaults s0))) := rfl

theorem finishBody_err_inv (w : World) (s1 s3 : JSObj) (r : Option ShapeRes)
    (w' : World) (s : Option JSObj) (h : finishBody w s1 s3 r = .err w' s) :
    w' = w ∧ s = some s1 := by
  cases r with
  | none =>
    injection h with h1 h2
    exact ⟨h1.symm, h2.symm⟩
  | some shp => exact absurd h (by simp [finishBody])

theorem finishBody_ok_inv (w : World) (s1 s3 : JSObj) (r : Option ShapeRes)
    (w' : World) (b : B2Body) (out : JSObj) (h : finishBody w s1 s3 r = .ok w' b out) :
    w'.bodies = w.bodies ++ [b] ∧ out = s1 := by
  cases r with
  | none => exact absurd h (by simp [finishBody])
  | some shp =>
    injection h with h1 h2 h3
    constructor
    · rw [← h1, ← h2]
    · exact h3.symm

theorem parseSign_not_sign (a : Char) (l : List Char)
    (h45 : a.toNat ≠ 45) (h43 : a.toNat ≠ 43) :
    parseSign (a :: l) = (false, a :: l) := by
  simp [parseSign, h45, h43]

theorem strToNumber_digits_px (a : Char) (t : List Char)
    (hds : ∀ c ∈ a :: t, isDigit c = true) :
    strToNumberQ ((a :: t) ++ ['p', 'x']) = .nan := by
  have ha : isDigit a = true := hds a (by simp)
  have e1 : ((a :: t) ++ ['p', 'x']).dropWhile isJsWS = (a :: t) ++ ['p', 'x'] :=
    dropWhile_head_false _ _ _ (isDigit_not_ws ha)
  have e2 : ((a :: t) ++ ['p', 'x']).reverse.dropWhile isJsWS = ((a :: t) ++ ['p', 'x']).reverse := by
    have hu : ((a :: t) ++ ['p', 'x']).reverse = 'x' :: ('p' :: (a :: t).reverse) := by simp
    rw [hu]
    exact dropWhile_head_false _ _ _ (by decide)
  have etw : ((a :: t) ++ ['p', 'x']).takeWhile isDigit = a :: t :=
    takeWhile_append_all _ _ _ hds
      (by intro c hc; injection hc with hc'; rw [← hc']; decide)
  have edw : ((a :: t) ++ ['p', 'x']).dropWhile isDigit = ['p', 'x'] :=
    dropWhile_append_all _ _ _ hds
      (by intro c hc; injection hc with hc'; rw [← hc']; decide)
  have hman : parseMantissa ((a :: t) ++ ['p', 'x']) =
      some ((natOfDigits (a :: t) : ℚ), ['p', 'x']) := by
    simp only [parseMantissa, etw, edw]
    rw [if_neg (by decide : ¬ ('p'.toNat = 46))]
    simp
  have hsign : parseSign ((a :: t) ++ ['p', 'x']) = (false, (a :: t) ++ ['p', 'x']) :=
    parseSign_not_sign a _ (isDigit_toNat_ne ha).1 (isDigit_toNat_ne ha).2.1
  simp only [strToNumberQ, e1, e2, List.reverse_reverse]
  rw [show ((a :: t) ++ ['p', 'x']).isEmpty = false from rfl]
  simp only [Bool.false_eq_true, if_false]
  rw [hsign]
  simp only [hman]
  rfl

theorem litChars_pxClass (neg useDot : Bool) (ip fp : List Char)
    (hip : ∀ c ∈ ip, isDigit c = true) (hfp : ∀ c ∈ fp, isDigit c = true) :
    ∀ c ∈ litChars neg ip useDot fp, isPxClass c = true := by
  intro c hc
  simp only [litChars, List.mem_append] at hc
  rcases hc with (hc | hc) | hc
  · cases neg with
    | false => simp at hc
    | true =>
      simp only [if_true, List.mem_singleton] at hc
      rw [hc]
      decide
  · exact isDigit_isPxClass (hip c hc)
  · cases useDot with
    | false => simp at hc
    | true =>
      simp only [if_true, List.mem_cons] at hc
      rcases hc with hc | hc
      · rw [hc]
        decide
      · exact isDigit_isPxClass (hfp c hc)

theorem litChars_cons (neg useDot : Bool) (ip fp : List Char)
    (hform : if useDot = true then fp ≠ [] else ip ≠ []) :
    ∃ a t, litChars neg ip useDot fp = a :: t := by
  cases neg with
  | true => exact ⟨'-', ip ++ (if useDot then '.' :: fp else []), by simp [litChars]⟩
  | false =>
    cases ip with
    | cons a t =>
      exact ⟨a, t ++ (if useDot then '.' :: fp else []), by simp [litChars]⟩
    | nil =>
      cases useDot with
      | false => exact absurd rfl hform
      | true => exact ⟨'.', fp, by simp [litChars]⟩

theorem parseSign_body (useDot : Bool) (ip fp : List Char)
    (hip : ∀ c ∈ ip, isDigit c = true)
    (hform : if useDot = true then fp ≠ [] else ip ≠ []) :
    parseSign (ip ++ (if useDot then '.' :: fp else [])) =
      (false, ip ++ (if useDot then '.' :: fp else [])) := by
  cases ip with
  | cons a t =>
    exact parseSign_not_sign a _ (isDigit_toNat_ne (hip a (by simp))).1
      (isDigit_toNat_ne (hip a (by simp))).2.1
  | nil =>
    cases useDot with
    | false => exact absurd rfl hform
    | true => exact parseSign_not_sign '.' fp (by decide) (by decide)

theorem parseMantissa_body (useDot : Bool) (ip fp : List Char)
    (hip : ∀ c ∈ ip, isDigit c = true) (hfp : ∀ c ∈ fp, isDigit c = true)
    (hform : if useDot = true then fp ≠ [] else ip ≠ []) :
    parseMantissa (ip ++ (if useDot then '.' :: fp else [])) =
      some ((natOfDigits ip : ℚ) + (if useDot then fracOfDigits fp else 0), []) := by
  cases useDot with
  | false =>
    rw [show (if false then '.' :: fp else []) = ([] : List Char) from rfl, List.append_nil]
    simp only [parseMantissa, takeWhile_all isDigit ip hip, dropWhile_all isDigit ip hip]
    have hie : ip.isEmpty = false := by
      cases ip with
      | nil => exact absurd rfl hform
      | cons a t => rfl
    simp [hie]
  | true =>
    rw [show (if true then '.' :: fp else []) = '.' :: fp from rfl]
    have htw : (ip ++ '.' :: fp).takeWhile isDigit = ip :=
      takeWhile_append_all _ _ _ hip
        (by intro c hc; injection hc with hc'; rw [← hc']; decide)
    have hdw : (ip ++ '.' :: fp).dropWhile isDigit = '.' :: fp :=
      dropWhile_append_all _ _ _ hip
        (by intro c hc; injection hc with hc'; rw [← hc']; decide)
    have hfe : fp.isEmpty = false := by
      cases fp with
      | nil => exact absurd rfl hform
      | cons a t => rfl
    simp only [parseMantissa, htw, hdw]
    rw [if_pos (show '.'.toNat = 46 from rfl)]
    simp [takeWhile_all isDigit fp hfp, dropWhile_all isDigit fp hfp, hfe]

theorem parseFloat_lit (neg useDot : Bool) (ip fp : List Char)
    (hip : ∀ c ∈ ip, isDigit c = true) (hfp : ∀ c ∈ fp, isDigit c = true)
    (hform : if useDot = true then fp ≠ [] else ip ≠ []) :
    parseFloatQ (litChars neg ip useDot fp) = .num (decValue neg ip useDot fp) := by
  have hman := parseMantissa_body useDot ip fp hip hfp hform
  cases neg with
  | false =>
    have hsign := parseSign_body useDot ip fp hip hform
    have hb : litChars false ip useDot fp = ip ++ (if useDot then '.' :: fp else []) := by
      simp [litChars]
    rw [hb]
    have hdws : (ip ++ (if useDot then '.' :: fp else [])).dropWhile isJsWS =
        ip ++ (if useDot then '.' :: fp else []) := by
      cases ip with
      | cons a t => exact dropWhile_head_false _ _ _ (isDigit_not_ws (hip a (by simp)))
      | nil =>
        cases useDot with
        | false => exact absurd rfl hform
        | true => exact dropWhile_head_false _ _ _ (by decide)
    simp only [parseFloatQ, hdws, hsign, hman]
    norm_num [decValue, parseExponent, zpow10, npow10]
  | true =>
    have hb : litChars true ip useDot fp = '-' :: (ip ++ (if useDot then '.' :: fp else [])) := by
      simp [litChars]
    rw [hb]
    have hdws : ('-' :: (ip ++ (if useDot then '.' :: fp else []))).dropWhile isJsWS =
        '-' :: (ip ++ (if useDot then '.' :: fp else [])) :=
      dropWhile_head_false _ _ _ (by decide)
    have hsign2 : parseSign ('-' :: (ip ++ (if useDot then '.' :: fp else []))) =
        (true, ip ++ (if useDot then '.' :: fp else [])) := rfl
    simp only [parseFloatQ, hdws, hsign2, hman]
    norm_num [decValue, parseExponent, zpow10, npow10]

theorem pxReplaceSplit_full (ws1 ws2 : List Char)
    (h1 : ∀ c ∈ ws1, isJsWS c = true) (h2 : ∀ c ∈ ws2, isJsWS c = true)
    (lit : List Char) (a : Char) (t : List Char) (hat : lit = a :: t)
    (hclass : ∀ c ∈ lit, isPxClass c = true)
    (pc xc : Char) (hp : isP pc = true) (hx : isX xc = true) :
    pxReplaceSplit (ws1 ++ (lit ++ (ws2 ++ [pc, xc]))) = some ([], lit, []) := by
  have hheadpx : ∀ c, (ws2 ++ [pc, xc]).head? = some c → isPxClass c = false := by
    intro c hc
    cases ws2 with
    | nil =>
      rw [List.nil_append, List.head?_cons] at hc
      injection hc with hc'
      rw [← hc']
      exact isP_not_pxClass hp
    | cons w tw =>
      rw [List.cons_append, List.head?_cons] at hc
      injection hc with hc'
      rw [← hc']
      exact ws_not_pxClass (h2 w (by simp))
  have e1 : (ws1 ++ (lit ++ (ws2 ++ [pc, xc]))).dropWhile isJsWS =
      lit ++ (ws2 ++ [pc, xc]) := by
    apply dropWhile_append_all _ _ _ h1
    intro c hc
    rw [hat, List.cons_append, List.head?_cons] at hc
    injection hc with hc'
    rw [← hc']
    exact isPxClass_not_ws (hclass a (by rw [hat]; simp))
  have hg : (lit ++ (ws2 ++ [pc, xc])).takeWhile isPxClass = lit :=
    takeWhile_append_all _ _ _ hclass hheadpx
  have hd : (lit ++ (ws2 ++ [pc, xc])).dropWhile isPxClass = ws2 ++ [pc, xc] :=
    dropWhile_append_all _ _ _ hclass hheadpx
  have hd2 : (ws2 ++ [pc, xc]).dropWhile isJsWS = [pc, xc] := by
    apply dropWhile_append_all _ _ _ h2
    intro c hc
    rw [List.head?_cons] at hc
    injection hc with hc'
    rw [← hc']
    exact isP_not_ws hp
  have hmatch : pxMatchAt (ws1 ++ (lit ++ (ws2 ++ [pc, xc]))) = some (lit, []) := by
    simp only [pxMatchAt, e1, hg, hd, hd2]
    rw [hat]
    simp [hp, hx]
  simp [pxReplaceSplit, hmatch]

/-! ## Claim theorems -/

/-- Claim C1, counterexample: the character class of `parsePixels` is
`[-0-9.]`, which has no `+`, so the plus-signed literal "+5px" bypasses the
regex entirely and falls through to bare `parseFloat`, yielding 5 — not
5 / 2 as the claim requires at draw ratio 2. -/
theorem parsePixels_plus_sign_cex :
    parsePixelsV (.numv (.num 2)) (.str "+5px") = .numv (.num 5) ∧
    (5 : ℚ) ≠ 5 / 2 := by
  constructor
  · show JSValue.numv (.num ((5 : ℚ) * zpow10 0)) = .numv (.num 5)
    rw [show zpow10 0 = 1 from rfl]
    norm_num
  · norm_num

/-- Claim C1 (amended): for every string of optional leading whitespace, a
minus-signed or unsigned decimal literal, optional whitespace and a
case-insensitive px suffix, and every draw ratio r > 0, `parsePixels`
returns the literal's value divided by r, and `toPixels` of that quotient
returns the value itself (the exact round trip of the idealized
arithmetic).  The plus sign the original claim admitted is excluded: the
regex class `[-0-9.]` rejects it (see the counterexample). -/
theorem parsePixels_px_roundtrip
    (r : ℚ) (hr : 0 < r) (ws1 ws2 : List Char)
    (h1 : ∀ c ∈ ws1, isJsWS c = true) (h2 : ∀ c ∈ ws2, isJsWS c = true)
    (neg useDot : Bool) (ip fp : List Char)
    (hip : ∀ c ∈ ip, isDigit c = true) (hfp : ∀ c ∈ fp, isDigit c = true)
    (hform : if useDot = true then fp ≠ [] else ip ≠ [])
    (pc xc : Char) (hp : isP pc = true) (hx : isX xc = true) :
    parsePixelsV (.numv (.num r))
        (.str ⟨ws1 ++ (litChars neg ip useDot fp ++ (ws2 ++ [pc, xc]))⟩) =
      .numv (.num (decValue neg ip useDot fp / r)) ∧
    toPixels (.numv (.num r)) (.numv (.num (decValue neg ip useDot fp / r))) =
      .num (decValue neg ip useDot fp) := by
  obtain ⟨a, t, hat⟩ := litChars_cons neg useDot ip fp hform
  have hclass := litChars_pxClass neg useDot ip fp hip hfp
  have hsplit := pxReplaceSplit_full ws1 ws2 h1 h2 _ a t hat hclass pc xc hp hx
  constructor
  · show JSValue.numv (parsePixelsStr (.num r)
        (ws1 ++ (litChars neg ip useDot fp ++ (ws2 ++ [pc, xc])))) =
      .numv (.num (decValue neg ip useDot fp / r))
    simp only [parsePixelsStr, hsplit]
    rw [show substParse []
          (jdiv (jmul (parseFloatQ (litChars neg ip useDot fp)) (.num 1)) (.num r)) [] =
        jdiv (jmul (parseFloatQ (litChars neg ip useDot fp)) (.num 1)) (.num r) from rfl]
    rw [parseFloat_lit neg useDot ip fp hip hfp hform]
    simp only [jmul, jdiv]
    rw [if_neg hr.ne']
    norm_num
  · show jmul (.num (decValue neg ip useDot fp / r)) (.num r) =
      .num (decValue neg ip useDot fp)
    simp only [jmul]
    rw [div_mul_cancel₀ _ hr.ne']

/-- Witness for C1 at the string "5px" and draw ratio 2. -/
theorem parsePixels_px_roundtrip_witness :
    parsePixelsV (.numv (.num 2))
        (.str ⟨[] ++ (litChars false ['5'] false [] ++ ([] ++ ['p', 'x']))⟩) =
      .numv (.num (decValue false ['5'] false [] / 2)) ∧
    toPixels (.numv (.num 2)) (.numv (.num (decValue false ['5'] false [] / 2))) =
      .num (decValue false ['5'] false []) :=
  parsePixels_px_roundtrip 2 two_pos [] [] (by simp) (by simp) false false ['5'] []
    (by decide) (by simp) (by simp) 'p' 'x' (by decide) (by decide)

/-- Claim C2 (the code contradicts it): `addBody` with a circle whose
`radius` is the string `"redpx"` — which does not match the pixel pattern —
does not fail; it builds and registers a circle fixture whose radius is
NaN, silently propagating the not-a-number value. -/
theorem addBody_nan_string_accepted :
    isErr (addBody (worldInit [])
        (some [("shape", .str "circle"), ("radius", .str "redpx")])) = false ∧
    resShape (addBody (worldInit [])
        (some [("shape", .str "circle"), ("radius", .str "redpx")])) =
      some (.circle (.numv .nan)) :=
  ⟨rfl, rfl⟩

/-- Claim C3, counterexample: `addBody` applied to an empty options object
does not fail — only the zero-argument call does. -/
theorem addBody_empty_object_cex :
    isErr (addBody (worldInit []) (some [])) = false := rfl

/-- Claim C3 (amended): `addBody` called with no argument at all throws a
TypeError and leaves the world untouched, but `addBody({})` succeeds,
constructing the default static box whose half extents are NaN (from
`undefined / 2`). -/
theorem addBody_no_argument_amended :
    (∀ w : World, addBody w none = .err w none) ∧
    isErr (addBody (worldInit []) (some [])) = false ∧
    resShape (addBody (worldInit []) (some [])) = some (.box .nan .nan) :=
  ⟨fun _ => rfl, rfl, rfl⟩

/-- Claim C4 (the code contradicts its own doc comment): the three vertex
encodings of the point list (1,2), (3,4), (5,6) produce different polygon
fixtures — the pair encoding yields the numeric vertices, while the
record and flat encodings yield `(undefined, undefined)` for every vertex,
because the vertex loop reads `e[0]`/`e[1]` only. -/
theorem addBody_vertex_encodings_differ :
    resShape (addBody (worldInit []) (some [("vertices", pairEncoding)])) =
      some (.polygon [(.numv (.num 1), .numv (.num 2)),
                      (.numv (.num 3), .numv (.num 4)),
                      (.numv (.num 5), .numv (.num 6))]) ∧
    resShape (addBody (worldInit []) (some [("vertices", recordEncoding)])) =
      some (.polygon [(.undef, .undef), (.undef, .undef), (.undef, .undef)]) ∧
    resShape (addBody (worldInit []) (some [("vertices", flatEncoding)])) =
      some (.polygon [(.undef, .undef), (.undef, .undef), (.undef, .undef),
                      (.undef, .undef), (.undef, .undef), (.undef, .undef)]) ∧
    JSValue.numv (.num 1) ≠ JSValue.undef :=
  ⟨rfl, rfl, rfl, fun h => JSValue.noConfusion h⟩

/-- Claim C6: whenever `addBody` fails with a TypeError, the registry is
untouched: the world at the throw has the same bodies list, so every
`iterBodies` traversal is unchanged. -/
theorem addBody_error_preserves_registry (w : World) (arg : Option JSObj)
    (w' : World) (s : Option JSObj) (h : addBody w arg = .err w' s) :
    w'.bodies = w.bodies ∧
      ∀ (α : Type) (f : ℕ → B2Body → α), iterBodies w' f = iterBodies w f := by
  have hw : w' = w := by
    cases arg with
    | none =>
      injection h with h1 h2
      exact h1.symm
    | some s0 =>
      rw [addBody_some_eq] at h
      exact (finishBody_err_inv _ _ _ _ _ _ h).1
  subst hw
  exact ⟨rfl, fun α f => rfl⟩

/-- Witness for C6 at a concrete failing call (unrecognized shape tag). -/
theorem addBody_error_preserves_registry_witness :
    (resWorld (addBody (worldInit []) (some [("shape", .str "triangle")]))).bodies =
      (worldInit []).bodies :=
  (addBody_error_preserves_registry (worldInit [])
    (some [("shape", .str "triangle")]) _ _ rfl).1

/-- Claim C7: the argument form of `gravity` is a per-axis partial update —
an axis missing from the argument object keeps its current value — and on
a fresh world (gravity {0, 9.8}) setting `{x: 5}` makes the no-argument
read return {5, 9.8}. -/
theorem gravity_partial_update :
    (∀ (w : World) (o : JSObj), hasKey o "y" = false →
        ((gravityOp w (.obj o)).1).gravity.2 = w.gravity.2) ∧
    (∀ (w : World) (o : JSObj), hasKey o "x" = false →
        ((gravityOp w (.obj o)).1).gravity.1 = w.gravity.1) ∧
    (gravityOp ((gravityOp (worldInit []) (.obj [("x", .numv (.num 5))])).1) .undef).2 =
      some (.numv (.num 5), .numv (.num (49 / 5))) := by
  refine ⟨?_, ?_, rfl⟩
  · intro w o h
    have hy : getProp o "y" = .undef := getProp_of_not_hasKey o "y" h
    simp [gravityOp, propGet, truthy, hy, looseEqUndefined]
  · intro w o h
    have hx : getProp o "x" = .undef := getProp_of_not_hasKey o "x" h
    simp [gravityOp, propGet, truthy, hx, looseEqUndefined]

/-- Witness for C7 at a concrete world and argument. -/
theorem gravity_partial_update_witness :
    ((gravityOp (worldInit []) (.obj [])).1).gravity.2 = (worldInit []).gravity.2 :=
  gravity_partial_update.1 (worldInit []) [] rfl

/-- Claim C8: a successful `addBody` appends the returned body as the new
last registry entry (traversal length grows by exactly one), and the only
other modelled world-mutating operation, `gravity`, never touches the
registry. -/
theorem addBody_appends_registry (w : World) (arg : Option JSObj)
    (w' : World) (b : B2Body) (out : JSObj) (h : addBody w arg = .ok w' b out) :
    w'.bodies = w.bodies ++ [b] ∧
      w'.bodies.getLast? = some b ∧
      w'.bodies.length = w.bodies.length + 1 ∧
      (∀ (α : Type) (f : ℕ → B2Body → α),
        (iterBodies w' f).length = (iterBodies w f).length + 1) ∧
      (∀ (w₂ : World) (g : JSValue), ((gravityOp w₂ g).1).bodies = w₂.bodies) := by
  have hmain : w'.bodies = w.bodies ++ [b] := by
    cases arg with
    | none => exact absurd h (by simp [addBody])
    | some s0 =>
      rw [addBody_some_eq] at h
      exact (finishBody_ok_inv _ _ _ _ _ _ _ h).1
  refine ⟨hmain, ?_, ?_, ?_, ?_⟩
  · rw [hmain]
    exact List.getLast?_concat _
  · rw [hmain]
    simp
  · intro α f
    simp only [iterBodies, iterBodiesFrom_length]
    rw [hmain]
    simp
  · intro w₂ g
    simp only [gravityOp]
    split
    · rfl
    · rfl

/-- Witness for C8 at a concrete successful call. -/
theorem addBody_appends_registry_witness :
    (resWorld (addBody (worldInit []) (some []))).bodies.length =
      (worldInit []).bodies.length + 1 :=
  (addBody_appends_registry (worldInit []) (some []) _ _ _ rfl).2.2.1

/-- Claim C5, counterexample: supplying `shape` explicitly as `undefined`
is not the same as omitting it — the `key in settings` test sees the key,
the default `box` is not filled in, and `addBody` throws at the shape
switch, while the same call without the key builds the box. -/
theorem addBody_shape_undefined_cex :
    isErr (addBody (worldInit [])
        (some [("shape", JSValue.undef), ("width", .numv (.num 1)),
               ("height", .numv (.num 1))])) = true ∧
    isErr (addBody (worldInit [])
        (some [("width", .numv (.num 1)), ("height", .numv (.num 1))])) = false :=
  ⟨rfl, rfl⟩

/-- Claim C5 (amended): `merge` treats a key present with value
`undefined` as provided (the `key in settings` test), so the documented
default is not filled in; in particular any options object whose `shape`
key holds `undefined` (with no truthy `vertices` to override it) makes
`addBody` throw at the shape switch instead of building the default box. -/
theorem addBody_explicit_undefined_kept (w : World) (s : JSObj)
    (hk : hasKey s "shape" = true) (hsh : getProp s "shape" = .undef)
    (hv : truthy (getProp (merge bodyDefaults s) "vertices") = false) :
    isErr (addBody w (some s)) = true := by
  have h1 : getProp (merge bodyDefaults s) "shape" = .undef := by
    rw [getProp_merge, hk]
    simpa using hsh
  have h2 : getProp (merge (merge bodyDefaults s)
      (pxFields w.drawRatio (merge bodyDefaults s))) "shape" = .undef := by
    rw [getProp_merge, hasKey_pxFields_shape]
    simpa using h1
  have hv2 : getProp (merge (merge bodyDefaults s)
      (pxFields w.drawRatio (merge bodyDefaults s))) "vertices" =
      getProp (merge bodyDefaults s) "vertices" := by
    rw [getProp_merge, hasKey_pxFields_vertices]
    simp
  have h3 : normSettings w.drawRatio (merge bodyDefaults s) =
      merge (merge bodyDefaults s) (pxFields w.drawRatio (merge bodyDefaults s)) := by
    simp only [normSettings]
    rw [hv2, hv]
    simp
  have h4 : resolveShape w.drawRatio (merge (merge bodyDefaults s)
      (pxFields w.drawRatio (merge bodyDefaults s))) = none := by
    unfold resolveShape
    rw [h2]
  rw [addBody_some_eq, h3, h4]
  rfl

/-- Witness for C5 at a concrete options object. -/
theorem addBody_explicit_undefined_kept_witness :
    isErr (addBody (worldInit []) (some [("shape", JSValue.undef)])) = true :=
  addBody_explicit_undefined_kept (worldInit []) [("shape", JSValue.undef)] rfl rfl rfl

/-- Claim C9, counterexample: `toPixels` does not strip `px`; on the
string "5px" with draw ratio 2 it multiplies the Number coercion of the
string — NaN — by the ratio, yielding NaN instead of 10. -/
theorem toPixels_px_string_cex :
    toPixels (.numv (.num 2)) (.str "5px") = .nan ∧ JSNum.nan ≠ JSNum.num 10 :=
  ⟨rfl, fun h => JSNum.noConfusion h⟩

/-- Claim C9 (amended): `unitsToPixels` multiplies the ToNumber coercion
of its input by the draw ratio — a bare real directly, while a digit
string carrying the `px` suffix coerces to NaN, because no px stripping
happens here (that behavior belongs to `toMeters`). -/
theorem toPixels_coercion_amended :
    (∀ q r : ℚ, toPixels (.numv (.num r)) (.numv (.num q)) = .num (q * r)) ∧
    (∀ (r : ℚ) (a : Char) (t : List Char), (∀ c ∈ a :: t, isDigit c = true) →
        toPixels (.numv (.num r)) (.str ⟨(a :: t) ++ ['p', 'x']⟩) = .nan) := by
  constructor
  · intro q r
    rfl
  · intro r a t h
    show jmul (toNumber (.str ⟨(a :: t) ++ ['p', 'x']⟩)) (toNumber (.numv (.num r))) = .nan
    rw [show toNumber (.str ⟨(a :: t) ++ ['p', 'x']⟩) =
          strToNumberQ ((a :: t) ++ ['p', 'x']) from rfl,
        strToNumber_digits_px a t h]
    rfl

/-- Witness for C9 at a concrete ratio, number, and pixel string. -/
theorem toPixels_coercion_amended_witness :
    toPixels (.numv (.num 2)) (.numv (.num 3)) = .num (3 * 2) ∧
    toPixels (.numv (.num 2)) (.str ⟨['5'] ++ ['p', 'x']⟩) = .nan :=
  ⟨toPixels_coercion_amended.1 3 2,
   toPixels_coercion_amended.2 2 '5' [] (by decide)⟩

/-- Claim C10, counterexample: after a successful `addBody` with draw
ratio 2, a pixel-string `x` and a supplied vertex list, the caller's
object still holds the raw string "50px" (not 25) and shape "box" (not
"polygon") — only the defaults were written into it. -/
theorem addBody_caller_object_cex :
    (resSettings (addBody (worldInit [("drawRatio", .numv (.num 2))])
        (some [("x", .str "50px"), ("vertices", pairEncoding)]))).map
      (fun o => (getProp o "x", getProp o "shape")) =
      some (.str "50px", .str "box") ∧
    JSValue.str "50px" ≠ JSValue.numv (.num 25) ∧
    JSValue.str "box" ≠ JSValue.str "polygon" := by
  refine ⟨rfl, fun h => JSValue.noConfusion h, fun h => ?_⟩
  have h2 : "box" = "polygon" := JSValue.str.inj h
  exact absurd h2 (by decide)

/-- Claim C10 (amended): `addBody` mutates the caller's object exactly by
the first default-filling `merge` — the unit conversions and the polygon
override land on a fresh internal object — while `randomImpulse` both
fills defaults and overwrites `scale` in the caller's object with its
pixel-normalized value. -/
theorem addBody_caller_object_amended :
    (∀ (w : World) (s : JSObj) (w' : World) (b : B2Body) (out : JSObj),
        addBody w (some s) = .ok w' b out → out = merge bodyDefaults s) ∧
    (∀ (w : World) (s : JSObj) (w' : World) (s' : Option JSObj),
        addBody w (some s) = .err w' s' → s' = some (merge bodyDefaults s)) ∧
    (∀ (w : World) (r rnd : ℚ) (s : JSObj), w.drawRatio = .numv (.num r) → 0 < r →
        hasKey s "scale" = false →
        getProp (randomImpulse w s rnd).settings "scale" = .numv (.num (10 / r))) := by
  refine ⟨?_, ?_, ?_⟩
  · intro w s w' b out h
    rw [addBody_some_eq] at h
    exact (finishBody_ok_inv _ _ _ _ _ _ _ h).2
  · intro w s w' s' h
    rw [addBody_some_eq] at h
    exact (finishBody_err_inv _ _ _ _ _ _ h).2
  · intro w r rnd s hdr hr hs
    have h1 : getProp (merge riDefaults s) "scale" = .str "10px" := by
      rw [getProp_merge, hs]
      rfl
    simp only [randomImpulse]
    rw [getProp_setKey_self, h1, hdr]
    show JSValue.numv (parsePixelsStr (toNumber (.numv (.num r))) ("10px").data) =
      .numv (.num (10 / r))
    have h2 : pxReplaceSplit ("10px").data = some ([], ['1', '0'], []) := rfl
    simp only [parsePixelsStr, h2, toNumber]
    show JSValue.numv (jdiv (jmul (.num ((10 : ℚ) * zpow10 0)) (.num 1)) (.num r)) =
      .numv (.num (10 / r))
    simp only [jmul, jdiv]
    rw [if_neg hr.ne']
    rw [show zpow10 0 = 1 from rfl]
    norm_num

/-- Witness for C10 at a concrete world, ratio, and options object. -/
theorem addBody_caller_object_amended_witness :
    getProp (randomImpulse (worldInit [("drawRatio", .numv (.num 2))]) [] 0).settings
        "scale" = .numv (.num (10 / 2)) :=
  addBody_caller_object_amended.2.2 (worldInit [("drawRatio", .numv (.num 2))]) 2 0 []
    rfl two_pos rfl

end FriendlyBox2d
